import Mathlib

/-!
Shallow embedding of the google_maps_scraper repository (Python) in Lean 4.

The embedded code lives in:
  * src/scraper/utils.py      — text cleaning, rating and review-count
    normalization, dedup, rating filter, sorting, JSON writer;
  * src/scraper/google_maps.py — extraction-side name filtering, website
    URL cleaning, spreadsheet writer;
  * src/main.py               — the aggregation pipeline of the CLI entry point.

Modelling conventions:
  * Python strings are Lean `String`; character-level work is done on `.data`
    so that every definition reduces in the kernel.
  * Python floats are modelled as exact rationals `ℚ`, always built with a
    single `mkRat` application (the decimal texts handled by this program are
    exactly representable; binary float rounding is not modelled).
  * Python dict records are the structure `Place`; a field that may hold a
    string or a number is `Option PyVal` (`none` = key absent).
  * Functions that write files return `Option` of the written content;
    `none` means no file write happened.
  * The regex class backslash-d is modelled as the ASCII digit test
    `Char.isDigit`, and lower-casing as ASCII lower-casing, matching every
    input the program actually handles.
-/

namespace GMaps

/-- Characters matched by the Python regex class backslash-s and stripped by
`str.strip()` (ASCII subset, which covers the inputs of this program). -/
def isPyWs (c : Char) : Bool :=
  c = ' ' || c = '\t' || c = '\n' || c = '\r' || c = '\x0b' || c = '\x0c'

/-- `re.sub(r'\s+', ' ', text)`: every maximal whitespace run becomes one
space.  The flag records whether the previous character was whitespace. -/
def collapseWsAux : Bool → List Char → List Char
  | _, [] => []
  | prevWs, c :: cs =>
    if isPyWs c then
      if prevWs then collapseWsAux true cs
      else ' ' :: collapseWsAux true cs
    else c :: collapseWsAux false cs

def collapseWs (l : List Char) : List Char := collapseWsAux false l

/-- `str.strip()`: drop whitespace from both ends. -/
def pyStrip (l : List Char) : List Char :=
  ((l.dropWhile isPyWs).reverse.dropWhile isPyWs).reverse

/-- `clean_text` from src/scraper/utils.py lines 16-35: empty input is
returned as is, otherwise whitespace runs are collapsed to single spaces and
the ends are stripped. -/
def clean_text (s : String) : String :=
  if s = "" then "" else String.mk (pyStrip (collapseWs s.data))

/-- Numeric value of an ASCII digit character. -/
def digitVal (c : Char) : ℕ := c.toNat - 48

/-- Value of a digit string read left to right (the `int` of Python on an
all-digit string). -/
def natOfDigits (l : List Char) : ℕ := l.foldl (fun n c => 10 * n + digitVal c) 0

/-- The suffix of the input starting at its first digit, if any digit occurs.
This is where the leftmost regex match of a pattern starting with a digit
class begins. -/
def findFirstDigit : List Char → Option (List Char)
  | [] => none
  | c :: cs => if c.isDigit then some (c :: cs) else findFirstDigit cs

/-- Numeric value of the leftmost match of `(\d+\.?\d*)` given the input
suffix that starts at the first digit: a maximal digit run, optionally a
decimal point, then a maximal (possibly empty) digit run, parsed as a
float.  `float("5.")` is `5.0`, which the empty fractional run reproduces. -/
def fragValue (l : List Char) : ℚ :=
  let ds := l.takeWhile Char.isDigit
  let rest := l.drop ds.length
  match rest with
  | '.' :: rest2 =>
    let fs := rest2.takeWhile Char.isDigit
    mkRat ((natOfDigits ds) * 10 ^ fs.length + natOfDigits fs) (10 ^ fs.length)
  | _ => mkRat (natOfDigits ds) 1

/-- `extract_rating` from src/scraper/utils.py lines 38-59: on empty input
return `0.0`; otherwise search `(\d+\.?\d*)` and parse the first match as a
float; if there is no match return `0.0`.  The `float` call on a matched
fragment never raises, so the except branch is dead. -/
def extract_rating (s : String) : ℚ :=
  if s = "" then 0
  else
    match findFirstDigit s.data with
    | some tl => fragValue tl
    | none => 0

/-- `extract_review_count` from src/scraper/utils.py lines 62-83: on empty
input return `0`; otherwise delete every non-digit character; if anything is
left parse it as an integer, else return `0`. -/
def extract_review_count (s : String) : ℤ :=
  if s = "" then 0
  else
    let cleaned := s.data.filter Char.isDigit
    if cleaned = [] then 0 else (natOfDigits cleaned : ℤ)

/-- Unsigned part of the Python `float(str)` grammar actually exercised by
this program: `digits`, `digits.digits`, `digits.` or `.digits`, nothing
else (exponents, inf, nan and digit-group underscores are out of scope). -/
def parseUnsignedFloat (l : List Char) : Option ℚ :=
  let ds := l.takeWhile Char.isDigit
  let rest := l.drop ds.length
  match rest with
  | [] => if ds = [] then none else some (mkRat (natOfDigits ds) 1)
  | '.' :: rest2 =>
    let fs := rest2.takeWhile Char.isDigit
    if rest2.drop fs.length ≠ [] then none
    else if ds = [] ∧ fs = [] then none
    else some (mkRat (natOfDigits ds * 10 ^ fs.length + natOfDigits fs) (10 ^ fs.length))
  | _ => none

/-- Python `float(s)` on a string: strip whitespace, optional sign, then the
unsigned float grammar; `none` models the `ValueError`. -/
def parsePyFloat (s : String) : Option ℚ :=
  match pyStrip s.data with
  | '+' :: rest => parseUnsignedFloat rest
  | '-' :: rest => (parseUnsignedFloat rest).map (fun q => mkRat (-q.num) q.den)
  | l => parseUnsignedFloat l

/-- Python `int(s)` on a string: strip whitespace, optional sign, digits
only; `none` models the `ValueError`. -/
def parsePyInt (s : String) : Option ℤ :=
  match pyStrip s.data with
  | '+' :: rest =>
    if rest ≠ [] ∧ rest.all Char.isDigit then some ((natOfDigits rest : ℕ) : ℤ) else none
  | '-' :: rest =>
    if rest ≠ [] ∧ rest.all Char.isDigit then some (-((natOfDigits rest : ℕ) : ℤ)) else none
  | l =>
    if l ≠ [] ∧ l.all Char.isDigit then some ((natOfDigits l : ℕ) : ℤ) else none

/-- A Python value stored in a record field: a string or a number. -/
inductive PyVal where
  | str (s : String)
  | num (q : ℚ)
  deriving DecidableEq, Repr

/-- A place record (the dicts assembled in `_extract_side_panel_info`):
only the fields the verified operations read are modelled; `none` in
`rating`/`reviews` models an absent dict key. -/
structure Place where
  name : String := ""
  address : String := ""
  rating : Option PyVal := none
  reviews : Option PyVal := none
  deriving DecidableEq, Repr

/-- Python `float(v)` on a field value. -/
def pyFloat : PyVal → Option ℚ
  | .num q => some q
  | .str s => parsePyFloat s

/-- Python `int(v)` on a field value; on a number it truncates toward zero. -/
def pyInt : PyVal → Option ℤ
  | .num q => some (q.num.tdiv q.den)
  | .str s => parsePyInt s

/-- `float(place.get('rating', 0))`: an absent key defaults to the number 0;
`none` models the raised `ValueError`/`TypeError`. -/
def ratingVal (p : Place) : Option ℚ := pyFloat (p.rating.getD (.num 0))

/-- `int(place.get('reviews', 0))`. -/
def reviewsVal (p : Place) : Option ℤ := pyInt (p.reviews.getD (.num 0))

/-- The dedup key of `merge_duplicate_places`:
`f"{name}_{address}"` over the cleaned fields. -/
def strKey (p : Place) : String :=
  clean_text p.name ++ "_" ++ clean_text p.address

/-- The loop of `merge_duplicate_places`: `seen` is the set of keys already
kept; a record is appended iff its key is a non-empty string not yet seen. -/
def mergeGo (seen : List String) : List Place → List Place
  | [] => []
  | p :: ps =>
    let key := strKey p
    if key ≠ "" ∧ key ∉ seen then p :: mergeGo (key :: seen) ps
    else mergeGo seen ps

/-- `merge_duplicate_places` from src/scraper/utils.py lines 252-275. -/
def merge_duplicate_places (places : List Place) : List Place := mergeGo [] places

/-- The loop of `filter_places_by_rating`: keep a record iff
`float(place.get('rating', 0))` succeeds and is `>= min_rating`; a
`ValueError`/`TypeError` silently skips the record. -/
def filterGo (min_rating : ℚ) : List Place → List Place
  | [] => []
  | p :: ps =>
    match ratingVal p with
    | some r => if min_rating ≤ r then p :: filterGo min_rating ps else filterGo min_rating ps
    | none => filterGo min_rating ps

/-- `filter_places_by_rating` from src/scraper/utils.py lines 278-298. -/
def filter_places_by_rating (places : List Place) (min_rating : ℚ) : List Place :=
  filterGo min_rating places

/-- Stable insertion of `x` before the first `y` with `le x y`.  Any stable
sort is extensionally unique, so this models the (stable) Python `sorted`. -/
def insertStable {α : Type} (le : α → α → Bool) (x : α) : List α → List α
  | [] => [x]
  | y :: ys => if le x y then x :: y :: ys else y :: insertStable le x ys

/-- Stable insertion sort: behaves like Python `sorted` with the comparator
`le` read as "may come first". -/
def insertionSortStable {α : Type} (le : α → α → Bool) : List α → List α
  | [] => []
  | x :: xs => insertStable le x (insertionSortStable le xs)

/-- The sort key `float(x.get('rating', 0))`, defined only on records where
the coercion succeeds (the sorted branch is reached only then). -/
def ratingKey (p : Place) : ℚ := (ratingVal p).getD 0

/-- Comparator of Python `sorted(key=..., reverse=descending)` for a ℚ key:
`a` may precede `b` iff its key is greater (descending) or smaller
(ascending), with ties always allowed so earlier input wins. -/
def ratingLe (descending : Bool) (a b : Place) : Bool :=
  if descending then decide (ratingKey b ≤ ratingKey a)
  else decide (ratingKey a ≤ ratingKey b)

/-- `sort_places_by_rating` from src/scraper/utils.py lines 301-320: if the
key function raises on any record (un-coercible rating) the whole `sorted`
call raises and the except branch returns the input unchanged; otherwise a
stable sort by rating. -/
def sort_places_by_rating (places : List Place) (descending : Bool := true) : List Place :=
  if places.all (fun p => (ratingVal p).isSome) then
    insertionSortStable (ratingLe descending) places
  else places

/-- The sort key `int(x.get('reviews', 0))`. -/
def reviewsKey (p : Place) : ℤ := (reviewsVal p).getD 0

/-- Comparator for the reviews sort, as for `ratingLe`. -/
def reviewsLe (descending : Bool) (a b : Place) : Bool :=
  if descending then decide (reviewsKey b ≤ reviewsKey a)
  else decide (reviewsKey a ≤ reviewsKey b)

/-- `sort_places_by_reviews` from src/scraper/utils.py lines 323-342. -/
def sort_places_by_reviews (places : List Place) (descending : Bool := true) : List Place :=
  if places.all (fun p => (reviewsVal p).isSome) then
    insertionSortStable (reviewsLe descending) places
  else places

/-- `save_to_json` from src/scraper/utils.py lines 211-226: no emptiness
guard, `json.dump` always runs; the result is the written record array. -/
def save_to_json (places : List Place) : Option (List Place) := some places

/-- ASCII lower-casing of one character (Python `str.lower` on the ASCII
names this program compares). -/
def pyLowerChar (c : Char) : Char :=
  if 'A' ≤ c ∧ c ≤ 'Z' then Char.ofNat (c.toNat + 32) else c

/-- Python `str.lower`. -/
def pyLower (s : String) : String := String.mk (s.data.map pyLowerChar)

/-- The row filter of `save_to_excel`: `df[df['name'] != 'Sponsored']` (case
sensitive) then `df[df['name'].str.lower() != 'results']`. -/
def excelKeep (p : Place) : Bool :=
  decide (p.name ≠ "Sponsored") && decide (pyLower p.name ≠ "results")

/-- `save_to_excel` from src/scraper/google_maps.py lines 170-185: an empty
list is a no-op (warning only, no file); otherwise the kept rows are
written.  All modelled records carry a `name` field, so the
`'name' in df.columns` test always holds. -/
def save_to_excel (places : List Place) : Option (List Place) :=
  if places = [] then none
  else some (places.filter excelKeep)

/-- The per-record guard of `_extract_places` (src/scraper/google_maps.py
lines 100-102): a side-panel record is appended iff
`place_info['name'].lower() != "results"`. -/
def keepExtractedName (p : Place) : Bool := decide (pyLower p.name ≠ "results")

/-- The name filtering applied by `_extract_places` to the records coming
back from the side panel. -/
def extractNameFilter (places : List Place) : List Place :=
  places.filter keepExtractedName

/-- The `--sort-by` CLI choice in src/main.py. -/
inductive SortKey where
  | rating
  | reviews
  | name
  deriving DecidableEq, Repr

/-- The aggregation pipeline of `main` (src/main.py lines 143-160), applied
to the non-empty scraped result list: first the rating filter (only when the
threshold is positive), then duplicate removal, then the optional sort; a
`--sort-by name` choice matches no branch of the if/elif chain and sorts
nothing. -/
def mainPipeline (results : List Place) (min_rating : ℚ) (sortBy : Option SortKey) :
    List Place :=
  let results1 := if 0 < min_rating then filter_places_by_rating results min_rating
                  else results
  let results2 := merge_duplicate_places results1
  match sortBy with
  | some .rating => sort_places_by_rating results2 true
  | some .reviews => sort_places_by_reviews results2 true
  | _ => results2

/-- Is `needle` a contiguous substring of the second list (Python `in` on
strings)? -/
def listContainsSub (needle : List Char) : List Char → Bool
  | [] => needle.isEmpty
  | c :: cs => needle.isPrefixOf (c :: cs) || listContainsSub needle cs

/-- Python `needle in hay` for strings. -/
def strContainsSub (hay needle : String) : Bool := listContainsSub needle.data hay.data

/-- The query component as `urlparse` returns it: the part after the first
`?`, with any `#` fragment first cut off. -/
def urlQueryChars (l : List Char) : List Char :=
  let noFrag := l.takeWhile (fun c => c ≠ '#')
  match noFrag.dropWhile (fun c => c ≠ '?') with
  | [] => []
  | _ :: rest => rest

/-- Split a query string at every `&` (the field separator of
`urllib.parse.parse_qs`). -/
def splitOnAmp : List Char → List (List Char)
  | [] => [[]]
  | c :: cs =>
    if c = '&' then [] :: splitOnAmp cs
    else
      match splitOnAmp cs with
      | r :: rs => (c :: r) :: rs
      | [] => [[c]]

/-- `name, sep, value = field.partition('=')`: split at the first `=`;
`none` when the field holds no `=` at all. -/
def partitionEq (l : List Char) : List Char × Option (List Char) :=
  match l.span (fun c => c ≠ '=') with
  | (nm, []) => (nm, none)
  | (nm, _ :: value) => (nm, some value)

/-- One hex digit (for percent decoding). -/
def hexVal (c : Char) : Option ℕ :=
  if c.isDigit then some (c.toNat - 48)
  else if 'a' ≤ c ∧ c ≤ 'f' then some (c.toNat - 87)
  else if 'A' ≤ c ∧ c ≤ 'F' then some (c.toNat - 55)
  else none

/-- `urllib.parse.unquote_plus` restricted to single-byte escapes: `+`
becomes a space and `%XX` with two hex digits becomes the character with
that code (multi-byte UTF-8 escapes do not occur in the verified inputs). -/
def unquotePlus : List Char → List Char
  | [] => []
  | '+' :: rest => ' ' :: unquotePlus rest
  | '%' :: h1 :: h2 :: rest =>
    match hexVal h1, hexVal h2 with
    | some a, some b => Char.ofNat (16 * a + b) :: unquotePlus rest
    | _, _ => '%' :: unquotePlus (h1 :: h2 :: rest)
  | c :: rest => c :: unquotePlus rest

/-- `urllib.parse.parse_qs` as a list of (name, value) pairs in field order:
split the query at `&`, split each field at its first `=`, skip fields
without `=` or with an empty value (blank values are not kept), and decode
both halves. -/
def qsPairs (query : List Char) : List (List Char × List Char) :=
  (splitOnAmp query).filterMap (fun field =>
    match partitionEq field with
    | (_, none) => none
    | (_, some []) => none
    | (nm, some value) => some (unquotePlus nm, unquotePlus value))

/-- The website cleaning step of `_extract_side_panel_info`
(src/scraper/google_maps.py lines 152-162): if the raw href contains
`google.com/url?`, answer the first value of the `q` query parameter
(`parse_qs(...).get('q', [raw_url])[0]`), else the raw href unchanged. -/
def resolveWebsite (raw_url : String) : String :=
  if strContainsSub raw_url "google.com/url?" then
    match (qsPairs (urlQueryChars raw_url.data)).filter (fun pr => pr.1 = ['q']) with
    | [] => raw_url
    | pr :: _ => String.mk pr.2
  else raw_url

/-!  Spec-side reference definitions.  Each follows the words of the claim it
is compared against, not the code. -/

/-- The dedup key the spec claims: the pair of cleaned name and cleaned
address. -/
def pairKey (p : Place) : String × String :=
  (clean_text p.name, clean_text p.address)

/-- One step of first-occurrence-wins deduplication: keep `p` iff no
already-kept record has the same key. -/
def specDedupStep (acc : List Place) (p : Place) : List Place :=
  if acc.any (fun q => strKey q = strKey p) then acc else acc ++ [p]

/-- First-occurrence-wins deduplication by the string key, written from the
amended wording of the dedup claim: walk the list in order and keep a record
iff no already-kept record has the same key. -/
def specDedupByKey (places : List Place) : List Place :=
  places.foldl specDedupStep []

/-- The Bool form of the rating-filter predicate: the rating field coerces
and reaches the threshold. -/
def ratingKeep (min_rating : ℚ) (p : Place) : Bool :=
  match ratingVal p with
  | some r => decide (min_rating ≤ r)
  | none => false

/-- The rating pattern the spec claims for `extract_rating`: the first
fragment of the form single digit, decimal point, single digit, parsed as a
number; `none` when no such fragment occurs. -/
def specRatingSpecFragment : List Char → Option ℚ
  | d :: '.' :: f :: rest =>
    if d.isDigit ∧ f.isDigit then some (mkRat (10 * digitVal d + digitVal f) 10)
    else specRatingSpecFragment ('.' :: f :: rest)
  | _ :: rest => specRatingSpecFragment rest
  | [] => none

/-- Rating normalization as the spec words it (claim on `extract_rating`). -/
def specExtractRating (s : String) : Option ℚ := specRatingSpecFragment s.data

/-- The rating filter as the spec words it: an un-coercible rating value is
treated as absent, that is zero, and the record is kept iff that value
reaches the threshold. -/
def specFilterZero (places : List Place) (min_rating : ℚ) : List Place :=
  places.filter (fun p => decide (min_rating ≤ (ratingVal p).getD 0))

/-!  Helper lemmas. -/

/-- The dedup key always contains the underscore separator, so the Python
truthiness test `if key` on it always passes. -/
lemma strKey_ne_empty (p : Place) : strKey p ≠ "" := by
  intro h
  have h1 := congrArg String.length h
  unfold strKey at h1
  rw [String.length_append, String.length_append] at h1
  have h2 : ("_" : String).length = 1 := rfl
  have h3 : ("" : String).length = 0 := rfl
  omega

/-- The accumulator loop of `merge_duplicate_places` agrees with the
fold-from-the-left spec formulation, given that the `seen` set holds exactly
the keys of the records kept so far. -/
lemma mergeGo_eq_foldl (ps : List Place) :
    ∀ (acc : List Place) (seen : List String),
      (∀ k, k ∈ seen ↔ ∃ q ∈ acc, strKey q = k) →
      ps.foldl specDedupStep acc = acc ++ mergeGo seen ps := by
  induction ps with
  | nil => intro acc seen _; simp [mergeGo]
  | cons p ps ih =>
    intro acc seen hinv
    rw [List.foldl_cons]
    by_cases hmem : strKey p ∈ seen
    · have hany : acc.any (fun q => strKey q = strKey p) = true := by
        rw [List.any_eq_true]
        rcases (hinv (strKey p)).mp hmem with ⟨q, hq, hk⟩
        exact ⟨q, hq, by simp [hk]⟩
      have hstep : specDedupStep acc p = acc := by
        unfold specDedupStep; rw [hany]; simp
      rw [hstep]
      simp only [mergeGo]
      rw [if_neg (by simp [hmem])]
      exact ih acc seen hinv
    · have hany : acc.any (fun q => strKey q = strKey p) = false := by
        rw [List.any_eq_false]
        intro q hq
        simp only [decide_eq_true_eq]
        intro hk
        exact hmem ((hinv (strKey p)).mpr ⟨q, hq, hk⟩)
      have hstep : specDedupStep acc p = acc ++ [p] := by
        unfold specDedupStep; rw [hany]; simp
      rw [hstep]
      simp only [mergeGo]
      rw [if_pos ⟨strKey_ne_empty p, hmem⟩]
      have hinv2 : ∀ k, k ∈ (strKey p :: seen) ↔ ∃ q ∈ acc ++ [p], strKey q = k := by
        intro k
        constructor
        · intro hk
          rcases List.mem_cons.mp hk with hk | hk
          · exact ⟨p, List.mem_append_right _ (by simp), hk.symm⟩
          · rcases (hinv k).mp hk with ⟨q, hq, hqk⟩
            exact ⟨q, List.mem_append_left _ hq, hqk⟩
        · rintro ⟨q, hq, hqk⟩
          rcases List.mem_append.mp hq with hq | hq
          · exact List.mem_cons_of_mem _ ((hinv k).mpr ⟨q, hq, hqk⟩)
          · have hqp : q = p := by simpa using hq
            subst hqp
            exact hqk ▸ List.mem_cons_self _ _
      rw [ih (acc ++ [p]) (strKey p :: seen) hinv2, List.append_assoc]
      rfl

/-- The filter loop keeps its records in input order. -/
lemma filterGo_eq_filter (m : ℚ) (ps : List Place) :
    filterGo m ps = ps.filter (ratingKeep m) := by
  induction ps with
  | nil => rfl
  | cons p ps ih =>
    simp only [filterGo, List.filter_cons]
    cases h : ratingVal p with
    | none =>
      have hk : ratingKeep m p = false := by unfold ratingKeep; rw [h]
      simp [hk, ih]
    | some r =>
      have hk : ratingKeep m p = decide (m ≤ r) := by unfold ratingKeep; rw [h]
      by_cases hm : m ≤ r
      · simp [hk, hm, ih]
      · simp [hk, hm, ih]

/-- The Bool rating predicate, read back as a proposition. -/
lemma ratingKeep_iff (m : ℚ) (p : Place) :
    ratingKeep m p = true ↔ ∃ r, ratingVal p = some r ∧ m ≤ r := by
  unfold ratingKeep
  cases h : ratingVal p <;> simp

/-- A string with no digit has no leftmost digit position. -/
lemma findFirstDigit_none (l : List Char) (h : ∀ c ∈ l, c.isDigit = false) :
    findFirstDigit l = none := by
  induction l with
  | nil => rfl
  | cons c cs ih =>
    have hc : c.isDigit = false := h c (by simp)
    simp only [findFirstDigit, hc]
    simpa using ih (fun d hd => h d (by simp [hd]))

/-- A rational built by `mkRat` from a non-negative numerator and a natural
denominator is non-negative. -/
lemma mkRat_nonneg_int (a : ℤ) (b : ℕ) (ha : 0 ≤ a) : 0 ≤ mkRat a b := by
  rw [Rat.mkRat_eq_divInt]
  exact Rat.divInt_nonneg ha (Int.natCast_nonneg b)

/-- Parsed rating fragments are non-negative. -/
lemma fragValue_nonneg (l : List Char) : 0 ≤ fragValue l := by
  unfold fragValue
  dsimp only
  split
  · exact mkRat_nonneg_int _ _ (by positivity)
  · exact mkRat_nonneg_int _ _ (by positivity)

/-!  Claim theorems. -/

/-- C1, counterexample.  The dedup key of `merge_duplicate_places` is the
single string `name ++ "_" ++ address` over cleaned fields, not the pair:
the records (name `a_b`, address `c`) and (name `a`, address `b_c`) have
distinct (cleaned name, cleaned address) pairs, yet the second is merged
away, so the output does not keep one record per distinct pair. -/
theorem C1_counterexample :
    merge_duplicate_places
        [⟨"a_b", "c", none, none⟩, ⟨"a", "b_c", none, none⟩]
      = [⟨"a_b", "c", none, none⟩]
    ∧ pairKey ⟨"a_b", "c", none, none⟩ ≠ pairKey ⟨"a", "b_c", none, none⟩ := by
  decide

/-- C1, amended.  `merge_duplicate_places` keeps exactly one record per
distinct concatenated key `cleaned name ++ "_" ++ cleaned address`, the kept
record being the first of its key in input order, survivors in input order:
it coincides with the left fold that keeps a record iff no already-kept
record shares its key. -/
theorem C1_amended (places : List Place) :
    merge_duplicate_places places = specDedupByKey places := by
  unfold merge_duplicate_places specDedupByKey
  have h := mergeGo_eq_foldl places [] [] (by simp)
  simpa using h.symm

/-- C2, counterexample.  `extract_rating` does not use the pattern single
digit, decimal point, single digit, and it is never undefined: on `12`,
which has no such fragment, it answers `12.0`, and on `No rating` it
answers `0.0` rather than an undefined marker that rating filters would
drop. -/
theorem C2_counterexample :
    extract_rating "12" = mkRat 12 1 ∧ specExtractRating "12" = none
    ∧ extract_rating "No rating" = 0 ∧ specExtractRating "No rating" = none := by
  decide

/-- C2, amended.  `extract_rating` parses the first fragment of the form
one or more digits, optionally a decimal point and further digits, as a
number; on input with no digit at all (including the empty string) it
returns `0.0`, so such records look zero-rated to consumers instead of
being excluded as undefined. -/
theorem C2_amended (s : String) (h : ∀ c ∈ s.data, c.isDigit = false) :
    extract_rating s = 0
    ∧ extract_rating "4.5 stars" = mkRat 9 2
    ∧ extract_rating "12" = mkRat 12 1
    ∧ extract_rating "4.55" = mkRat 91 20 := by
  refine ⟨?_, by decide, by decide, by decide⟩
  unfold extract_rating
  by_cases hs : s = ""
  · simp [hs]
  · rw [if_neg hs, findFirstDigit_none s.data h]

/-- Witness for C2, amended, at the digit-free input `N/A`. -/
theorem C2_amended_witness :
    extract_rating "N/A" = 0
    ∧ extract_rating "4.5 stars" = mkRat 9 2
    ∧ extract_rating "12" = mkRat 12 1
    ∧ extract_rating "4.55" = mkRat 91 20 :=
  C2_amended "N/A" (by decide)

/-- C3, counterexample.  `filter_places_by_rating` does not treat an
un-coercible rating as absent (zero): with threshold `0`, a record whose
rating text is `N/A` is silently dropped, while the treating-as-zero filter
of the claim keeps it. -/
theorem C3_counterexample :
    filter_places_by_rating [⟨"A", "x", some (.str "N/A"), none⟩] 0 = []
    ∧ specFilterZero [⟨"A", "x", some (.str "N/A"), none⟩] 0
        = [⟨"A", "x", some (.str "N/A"), none⟩] := by
  decide

/-- C3, amended.  The rating filter returns, in input order, exactly the
records whose rating field (an absent field reading as the number 0) is
float-coercible with value at least the threshold; a record with an
un-coercible rating value is silently dropped — it neither raises nor is
treated as zero-rated. -/
theorem C3_amended (places : List Place) (min_rating : ℚ) (p : Place) :
    List.Sublist (filter_places_by_rating places min_rating) places
    ∧ (p ∈ filter_places_by_rating places min_rating ↔
        p ∈ places ∧ ∃ r, ratingVal p = some r ∧ min_rating ≤ r) := by
  unfold filter_places_by_rating
  rw [filterGo_eq_filter]
  exact ⟨List.filter_sublist places, by rw [List.mem_filter, ratingKeep_iff]⟩

/-- Sample record with rating text `4.1` (first of the tying pair). -/
def ratedA : Place := ⟨"A", "a1", some (.str "4.1"), none⟩

/-- Sample record with rating text `4.7`. -/
def ratedB : Place := ⟨"B", "a2", some (.str "4.7"), none⟩

/-- Sample record with rating text `4.1` (second of the tying pair). -/
def ratedC : Place := ⟨"C", "a3", some (.str "4.1"), none⟩

/-- Sample record with the un-coercible rating text `N/A`. -/
def ratedNA : Place := ⟨"D", "a4", some (.str "N/A"), none⟩

/-- Sample record with rating text `2.0`. -/
def ratedD : Place := ⟨"D", "a4", some (.str "2.0"), none⟩

/-- C4, counterexample.  On ratings [4.1, 4.7, 4.1, N/A] the key function
`float` raises on `N/A`, the whole `sorted` call raises, and
`sort_places_by_rating` returns the input order [4.1, 4.7, 4.1, N/A]
unchanged — not the claimed order [4.7, 4.1, 4.1, N/A] with N/A as 0. -/
theorem C4_counterexample :
    sort_places_by_rating [ratedA, ratedB, ratedC, ratedNA] true
      = [ratedA, ratedB, ratedC, ratedNA]
    ∧ [ratedA, ratedB, ratedC, ratedNA] ≠ [ratedB, ratedA, ratedC, ratedNA] := by
  decide

/-- C4, amended.  When any rating is un-coercible the sort aborts and
returns the input unchanged; when every rating is coercible the sort is
stable descending: on ratings [4.1, 4.7, 4.1, 2.0] the output order is
[4.7, 4.1, 4.1, 2.0] with the two 4.1 records in input order. -/
theorem C4_amended (places : List Place)
    (h : places.all (fun p => (ratingVal p).isSome) = false) :
    sort_places_by_rating places true = places
    ∧ sort_places_by_rating [ratedA, ratedB, ratedC, ratedD] true
        = [ratedB, ratedA, ratedC, ratedD] := by
  refine ⟨?_, by decide⟩
  unfold sort_places_by_rating
  simp [h]

/-- Witness for C4, amended, at the singleton list holding the `N/A`
record. -/
theorem C4_amended_witness :
    sort_places_by_rating [ratedNA] true = [ratedNA]
    ∧ sort_places_by_rating [ratedA, ratedB, ratedC, ratedD] true
        = [ratedB, ratedA, ratedC, ratedD] :=
  C4_amended [ratedNA] (by decide)

/-- C5, counterexample.  The `Sponsored` exclusion is case sensitive and
applied only by the spreadsheet writer: a record named `SPONSORED` passes
the extraction-side filter and appears in the written spreadsheet rows, and
a record named exactly `Sponsored` appears in the written JSON array. -/
theorem C5_counterexample :
    extractNameFilter [⟨"SPONSORED", "x", none, none⟩]
      = [⟨"SPONSORED", "x", none, none⟩]
    ∧ save_to_excel (mainPipeline [⟨"SPONSORED", "x", none, none⟩] 0 none)
        = some [⟨"SPONSORED", "x", none, none⟩]
    ∧ save_to_json
        (mainPipeline (extractNameFilter [⟨"Sponsored", "y", none, none⟩]) 0 none)
        = some [⟨"Sponsored", "y", none, none⟩] := by
  decide

/-- C5, amended.  A record whose lower-cased name is `results` never
appears among the records kept by `_extract_places` nor among the
spreadsheet rows, and a record named exactly `Sponsored` (exact case) never
appears among the spreadsheet rows; other letter cases of `Sponsored` are
not excluded anywhere, and the JSON writer excludes nothing. -/
theorem C5_amended (places rows : List Place) (p : Place)
    (hname : p.name = "Sponsored" ∨ pyLower p.name = "results")
    (hrows : save_to_excel places = some rows) :
    p ∉ rows ∧ (pyLower p.name = "results" → p ∉ extractNameFilter places) := by
  have hrows2 : rows = places.filter excelKeep := by
    unfold save_to_excel at hrows
    by_cases hp : places = []
    · simp [hp] at hrows
    · rw [if_neg hp] at hrows
      exact (Option.some_injective _ hrows).symm
  constructor
  · intro hmem
    rw [hrows2, List.mem_filter] at hmem
    have hkeep := hmem.2
    unfold excelKeep at hkeep
    simp only [Bool.and_eq_true, decide_eq_true_eq] at hkeep
    rcases hname with hn | hn
    · exact hkeep.1 hn
    · exact hkeep.2 hn
  · intro hres hmem
    rw [extractNameFilter, List.mem_filter] at hmem
    have hkeep := hmem.2
    unfold keepExtractedName at hkeep
    simp only [decide_eq_true_eq] at hkeep
    exact hkeep hres

/-- Witness for C5, amended, at a record named exactly `Sponsored`. -/
theorem C5_amended_witness :
    (⟨"Sponsored", "y", none, none⟩ : Place) ∉ ([] : List Place)
    ∧ (pyLower "Sponsored" = "results" →
        (⟨"Sponsored", "y", none, none⟩ : Place)
          ∉ extractNameFilter [⟨"Sponsored", "y", none, none⟩]) :=
  C5_amended [⟨"Sponsored", "y", none, none⟩] [] ⟨"Sponsored", "y", none, none⟩
    (Or.inl rfl) (by decide)

/-- C6, counterexample.  The pipeline of `main` filters by rating before it
deduplicates, and the order is observable: for two records with the same
dedup key and ratings 3.0 then 5.0 at threshold 4, the pipeline answers the
5.0 record, while deduplicating first (as the claim orders the stages)
would keep the 3.0 record and then filter it away, leaving nothing.  There
is also no category-substring stage anywhere in `main`. -/
theorem C6_counterexample :
    mainPipeline
        [⟨"X", "Y", some (.str "3.0"), none⟩, ⟨"X", "Y", some (.str "5.0"), none⟩]
        4 none
      = [⟨"X", "Y", some (.str "5.0"), none⟩]
    ∧ filter_places_by_rating
        (merge_duplicate_places
          [⟨"X", "Y", some (.str "3.0"), none⟩, ⟨"X", "Y", some (.str "5.0"), none⟩])
        4
      = [] := by
  decide

/-- C6, amended.  The pipeline of `main` applies, in this order: the rating
filter (only when the threshold is positive), then deduplication, then the
optional sort; no category filter stage exists in `main`. -/
theorem C6_amended (results : List Place) (min_rating : ℚ) (h : 0 < min_rating) :
    mainPipeline results min_rating none
      = merge_duplicate_places (filter_places_by_rating results min_rating)
    ∧ mainPipeline results min_rating (some .rating)
      = sort_places_by_rating
          (merge_duplicate_places (filter_places_by_rating results min_rating)) true
    ∧ mainPipeline results 0 none = merge_duplicate_places results := by
  refine ⟨?_, ?_, ?_⟩ <;> simp [mainPipeline, h]

/-- Witness for C6, amended, at the empty result list and threshold 1. -/
theorem C6_amended_witness :
    mainPipeline [] 1 none
      = merge_duplicate_places (filter_places_by_rating [] 1)
    ∧ mainPipeline [] 1 (some .rating)
      = sort_places_by_rating
          (merge_duplicate_places (filter_places_by_rating [] 1)) true
    ∧ mainPipeline [] 0 none = merge_duplicate_places [] :=
  C6_amended [] 1 (by decide)

/-- C7.  Website cleaning: a raw href containing the redirect marker
`google.com/url?` resolves to the destination carried by its `q` query
parameter — the claimed redirect URL resolves to `https://example.com` —
and any href without the marker is returned unchanged. -/
theorem C7_theorem (url : String)
    (h : strContainsSub url "google.com/url?" = false) :
    resolveWebsite url = url
    ∧ resolveWebsite "https://www.google.com/url?q=https://example.com&sa=foo"
        = "https://example.com"
    ∧ resolveWebsite "https://example.com" = "https://example.com" := by
  refine ⟨?_, by decide, by decide⟩
  unfold resolveWebsite
  simp [h]

/-- Witness for C7 at the marker-free URL `https://example.com`. -/
theorem C7_theorem_witness :
    resolveWebsite "https://example.com" = "https://example.com"
    ∧ resolveWebsite "https://www.google.com/url?q=https://example.com&sa=foo"
        = "https://example.com"
    ∧ resolveWebsite "https://example.com" = "https://example.com" :=
  C7_theorem "https://example.com" (by decide)

/-- C8.  `extract_review_count` equals, on every input, the integer read
from the input with every non-digit character deleted, an empty or
all-non-digit input yielding zero; in particular `1,234 reviews` gives
1234, the empty string gives 0, and `(58)` gives 58. -/
theorem C8_theorem (s : String) :
    extract_review_count s = (natOfDigits (s.data.filter Char.isDigit) : ℤ)
    ∧ extract_review_count "1,234 reviews" = 1234
    ∧ extract_review_count "" = 0
    ∧ extract_review_count "(58)" = 58 := by
  refine ⟨?_, by decide, by decide, by decide⟩
  unfold extract_review_count
  by_cases hs : s = ""
  · subst hs; decide
  · rw [if_neg hs]
    dsimp only
    by_cases hc : s.data.filter Char.isDigit = []
    · rw [if_pos hc, hc]; decide
    · rw [if_neg hc]

/-- C9, counterexample.  `save_to_json` has no emptiness guard: on the
empty record list it still performs a write (of an empty array), so it is
not true that neither writer produces a file. -/
theorem C9_counterexample :
    save_to_json ([] : List Place) = some [] ∧ save_to_json ([] : List Place) ≠ none := by
  decide

/-- C9, amended.  On an empty record list the spreadsheet writer performs
no file write (it only logs a warning) — and it writes exactly when the
list is non-empty — while the JSON writer always writes, producing a file
holding an empty array for the empty list. -/
theorem C9_amended (places : List Place) :
    (save_to_excel places = none ↔ places = [])
    ∧ save_to_json places = some places := by
  refine ⟨?_, rfl⟩
  unfold save_to_excel
  by_cases hp : places = [] <;> simp [hp]

/-- C10.  On every input string, `extract_rating` is a non-negative
rational and `extract_review_count` a non-negative integer; both functions
are total (the only possible exception, the `ValueError` of the numeric
conversions, is either unreachable or caught in the source). -/
theorem C10_theorem (s : String) :
    0 ≤ extract_rating s ∧ 0 ≤ extract_review_count s := by
  constructor
  · unfold extract_rating
    by_cases hs : s = ""
    · simp [hs]
    · rw [if_neg hs]
      cases h : findFirstDigit s.data with
      | none => exact le_refl 0
      | some tl => exact fragValue_nonneg tl
  · unfold extract_review_count
    by_cases hs : s = ""
    · simp [hs]
    · rw [if_neg hs]
      dsimp only
      by_cases hc : s.data.filter Char.isDigit = []
      · rw [if_pos hc]
      · rw [if_neg hc]
        exact Int.natCast_nonneg _

end GMaps
